import Mathlib

/-! The package errorist: options, panic wrapping and stack traces.

A shallow embedding of the Go package `github.com/therne/errorist`
(`options.go`, `utils.go`, `closer.go`, `panic.go`, `stacktrace.go`).

Conventions of the embedding:

* a Go `string` is a Lean `String`; the functions of package `strings` are
  written over the list of characters, which agrees with Go's byte-wise
  definitions on valid UTF-8 text;
* a Go `error` value is `Option GoError`, with `none` for `nil`;
* an `interface{}` operand is a `Value`;
* a run-time panic (slice bounds, unresolved home directory) is `none` in a
  function that returns `Option`;
* the goroutine's call stack is an explicit `List Frame`, innermost frame
  first; every function that inspects the stack receives the frames of its
  callers and pushes its own frame before calling down;
* the process-wide variables `globalOptions` and `pkgLocalOptions` are the two
  fields of a `Registry` that is passed explicitly.
-/

set_option autoImplicit false

namespace Errorist

/-! ## Package `strings` and `path/filepath` -/

/-- Go `strings.HasPrefix(s, p)`. -/
def HasPrefix (s p : String) : Bool :=
  p.data.isPrefixOf s.data

/-- Scanning loop of `strings.Split` for a non-empty separator: `skip` counts
the characters of a matched separator that are still to be consumed, `cur`
holds the current piece in reverse. -/
def splitGo (sep : List Char) : Nat → List Char → List Char → List (List Char)
  | _, [], cur => [cur.reverse]
  | skip + 1, _ :: cs, cur => splitGo sep skip cs cur
  | 0, c :: cs, cur =>
    if sep.isPrefixOf (c :: cs) then cur.reverse :: splitGo sep (sep.length - 1) cs []
    else splitGo sep 0 cs (c :: cur)

/-- Go `strings.Split(s, sep)`. With an empty separator Go splits after each
character. -/
def Split (s sep : String) : List String :=
  if sep.data = [] then s.data.map (fun c => String.mk [c])
  else (splitGo sep.data 0 s.data []).map String.mk

/-- Go `strings.Join(elems, sep)`. -/
def Join : List String → String → String
  | [], _ => ""
  | [a], _ => a
  | a :: b :: rest, sep => a ++ sep ++ Join (b :: rest) sep

/-- Go `strings.Replace(s, old, new, -1)` for a one-character `old`. -/
def ReplaceChar (s : String) (old : Char) (new : String) : String :=
  String.mk (s.data.flatMap (fun c => if c = old then new.data else [c]))

/-- Go `strings.Repeat(s, n)`. -/
def Repeat (s : String) : Nat → String
  | 0 => ""
  | n + 1 => s ++ Repeat s n

/-- Element stack of `filepath.Clean`: a `..` removes the element before it,
is dropped at the root of a rooted path and is kept otherwise. -/
def cleanElems (rooted : Bool) : List String → List String → List String
  | [], acc => acc.reverse
  | e :: es, acc =>
    if e = ".." then
      match acc with
      | [] => if rooted then cleanElems rooted es [] else cleanElems rooted es [e]
      | top :: rest =>
        if top = ".." then cleanElems rooted es (e :: acc) else cleanElems rooted es rest
    else cleanElems rooted es (e :: acc)

/-- Go `filepath.Clean` on a slash-separated path. -/
def Clean (path : String) : String :=
  let rooted := HasPrefix path "/"
  let elems := (Split path "/").filter (fun e => e ≠ "" ∧ e ≠ ".")
  let out := (if rooted then "/" else "") ++ Join (cleanElems rooted elems []) "/"
  if out = "" then "." else out

/-- Go `filepath.Join(a, b)` for two elements. -/
def filepathJoin (a b : String) : String :=
  if a = "" ∧ b = "" then ""
  else if a = "" then Clean b
  else if b = "" then Clean a
  else Clean (a ++ "/" ++ b)

/-- The path without its trailing slashes. -/
def trimTrailingSlashes (cs : List Char) : List Char :=
  (cs.reverse.dropWhile (fun c => c = '/')).reverse

/-- Go `filepath.Base(path)`. -/
def Base (path : String) : String :=
  if path = "" then "."
  else
    let t := trimTrailingSlashes path.data
    if t = [] then "/"
    else String.mk (t.reverse.takeWhile (fun c => c ≠ '/')).reverse

/-- Go `filepath.SplitList(path)` with the list separator `:`. -/
def SplitList (path : String) : List String :=
  if path = "" then [] else Split path ":"

/-! ## Values, frames and errors -/

/-- One entry of a call stack, as `runtime.Frame` and `errors.Frame` expose
it. -/
structure Frame where
  Function : String
  File : String
  Line : Nat
  deriving DecidableEq, Repr

/-- An operand of dynamic type `interface{}`: `nil`, a string, or any other
value, given by its type name and by the text package `fmt` prints for it
under each verb. -/
inductive Value where
  | nil
  | str (s : String)
  | other (typeName : String) (render : Char → String)

/-- Text that `fmt` prints for one operand under the verb `%s`. -/
def Value.verbS : Value → String
  | .nil => "%!s(<nil>)"
  | .str s => s
  | .other _ render => render 's'

/-- Errors as values: `plain` is an error with a message only (`fmt.Errorf`,
the standard `errors.New`); the other three are the error types of
`github.com/pkg/errors`. The number tells apart errors created at different
places, as pointer identity does in Go. -/
inductive GoError where
  | plain (id : Nat) (msg : String)
  | fundamental (id : Nat) (msg : String) (stack : List Frame)
  | withMessage (cause : GoError) (msg : String)
  | withStack (err : GoError) (stack : List Frame)
  deriving DecidableEq, Repr

namespace GoError

/-- Method `Error()`. -/
def Error : GoError → String
  | plain _ msg => msg
  | fundamental _ msg _ => msg
  | withMessage cause msg => msg ++ ": " ++ cause.Error
  | withStack err _ => err.Error

/-- Method `Cause()` of the `causer` interface, for the types that have it. -/
def causeOf : GoError → Option GoError
  | withMessage cause _ => some cause
  | withStack err _ => some err
  | _ => none

/-- Method `StackTrace()` of the `stackTracer` interface, for the types that
have it. -/
def StackTrace : GoError → Option (List Frame)
  | fundamental _ _ stack => some stack
  | withStack _ stack => some stack
  | _ => none

/-- Function `errors.Cause`: follows `Cause()` down to the first error that
does not have the method. -/
def Cause : GoError → GoError
  | withMessage cause _ => cause.Cause
  | withStack err _ => err.Cause
  | e => e

/-- Function `errors.Is(err, target)` of the standard library: walks the
`Unwrap()` chain, which for these types is the `Cause()` chain. -/
def Is : GoError → GoError → Bool
  | withMessage cause msg, target =>
    decide (withMessage cause msg = target) || cause.Is target
  | withStack err stack, target =>
    decide (withStack err stack = target) || err.Is target
  | e, target => decide (e = target)

end GoError

/-! ## options.go -/

/-- The output of the logging functions: the lines handed to the sink, in
order. -/
abbrev LogSink := List String

/-- Struct `Options`. -/
structure Options where
  Logger : String → LogSink → LogSink
  DetailedStacktrace : Bool
  SkipNonProjectFiles : Bool
  IncludedPackages : List String
  WrapArguments : List Value
  WrapWithFmtErrorf : Bool

/-- Go `log.Println(err)`, without the time stamp of the standard logger. -/
def logPrintln (err : String) (sink : LogSink) : LogSink :=
  sink ++ [err]

/-- Variable `DefaultOptions`: the fields that the literal leaves out have
their zero value. -/
def DefaultOptions : Options where
  Logger := fun err => logPrintln err
  DetailedStacktrace := false
  SkipNonProjectFiles := true
  IncludedPackages := []
  WrapArguments := []
  WrapWithFmtErrorf := false

/-- Type `Option`, a function that updates an `Options` in place. -/
abbrev Option' := Options → Options

/-- Option `Wrapf`. -/
def Wrapf (format : String) (args : List Value) : Option' :=
  fun o => { o with WrapArguments := [Value.str format] ++ args }

/-- Option `WrapWithFmtErrorf`. -/
def WrapWithFmtErrorf : Option' :=
  fun o => { o with WrapWithFmtErrorf := true }

/-- Option `WithDetailedTrace`. -/
def WithDetailedTrace : Option' :=
  fun o => { o with DetailedStacktrace := true }

/-- Option `IncludeNonProjectFiles`. -/
def IncludeNonProjectFiles : Option' :=
  fun o => { o with SkipNonProjectFiles := true }

/-- Option `IncludedPackages`. -/
def IncludedPackages (pkgs : List String) : Option' :=
  fun o => { o with IncludedPackages := pkgs }

/-- Option `LogWithLogrus`: `lf` is a variadic logging function. -/
def LogWithLogrus (lf : List Value → LogSink → LogSink) : Option' :=
  fun o => { o with Logger := fun err => lf [Value.str err] }

/-- Option `LogWithPrintfFamily`: `lf` receives the error text as its format
string. -/
def LogWithPrintfFamily (lf : String → List Value → LogSink → LogSink) : Option' :=
  fun o => { o with Logger := fun err => lf err [] }

/-- Option `WithLogHandler`. -/
def WithLogHandler (handler : String → LogSink → LogSink) : Option' :=
  fun o => { o with Logger := handler }

/-- The package-level variables `globalOptions` and `pkgLocalOptions`. Reading
a key that the map does not hold gives the empty list. -/
structure Registry where
  globalOptions : List Option'
  pkgLocalOptions : String → List Option'

/-- State of the two variables when the program starts. -/
def Registry.init : Registry where
  globalOptions := []
  pkgLocalOptions := fun _ => []

/-- What the embedding takes from the process environment and from the
libraries it does not model: the variables read by `getGOPATHs`, the directory
that holds the sources of this package (it appears in the frames of the
package's own functions), `fmt.Sprintf` and `fmt.Sprint` on formats and
operands chosen by the caller, and the two steps of `detailedStacktrace` that
belong to the goroutine dump: `parseDump` is the error text of
`stack.ParseDump` when it fails, `renderBuckets skip opts goPaths` the lines
rendered from the buckets, or `none` when slicing the first bucket's calls is
out of range. -/
structure Env where
  GOPATH : String
  userHome : Option String
  HOME : String
  srcDir : String
  Sprintf : String → List Value → String
  Sprint : List Value → String
  parseDump : Option String
  renderBuckets : Nat → Options → List String → Option (List String)

/-- Function `runtime.Callers(skip, pc)` with `len(pc) = n`, called from the
innermost frame of `callers`: `skip = 0` names the frame of `Callers` itself
and `skip = 1` its caller. -/
def runtimeCallers (callers : List Frame) (skip n : Nat) : List Frame :=
  ((Frame.mk "runtime.Callers" "" 0 :: callers).drop skip).take n

/-- Frame of a function of this package that is executing the call at `line`
of `file`. -/
def ownFrame (env : Env) (fn file : String) (line : Nat) : Frame :=
  Frame.mk ("github.com/therne/errorist." ++ fn) (env.srcDir ++ "/" ++ file) line

/-! ## utils.go -/

/-- Function `callerPackageName(skip)`, called by the innermost frame of
`callers`. -/
def callerPackageName (env : Env) (callers : List Frame) (skip : Nat) : String :=
  let pc := runtimeCallers (ownFrame env "callerPackageName" "utils.go" 16 :: callers) (2 + skip) 1
  match pc with
  | [] => "unknown"
  | frame :: _ =>
    let frags := Split frame.Function "."
    if frags.length = 0 then
      if frame.Function ≠ "" then frame.Function else frame.File
    else Join (frags.take (frags.length - 1)) "."

/-- Function `callerTrace(skip)`, called by the innermost frame of `callers`. -/
def callerTrace (env : Env) (callers : List Frame) (skip : Nat) : String :=
  let pc := runtimeCallers (ownFrame env "callerTrace" "utils.go" 33 :: callers) (2 + skip) 1
  match pc with
  | [] => "unknown"
  | frame :: _ =>
    frame.Function ++ " (" ++ Base frame.File ++ ":" ++ toString frame.Line ++ ")"

/-- Function `errors.Wrapf(err, format, args...)` of `github.com/pkg/errors`
on a non-nil error: a message around `err`, then the stack of the caller. -/
def errorsWrapf (env : Env) (stack : List Frame) (err : GoError) (format : String)
    (args : List Value) : GoError :=
  GoError.withStack (GoError.withMessage err (env.Sprintf format args)) stack

/-- Function `errors.Wrap(err, message)` of `github.com/pkg/errors` on a
non-nil error. -/
def errorsWrap (stack : List Frame) (err : GoError) (message : String) : GoError :=
  GoError.withStack (GoError.withMessage err message) stack

/-- Function `maybeWrap(err, opts)`, called by the innermost frame of
`callers`. -/
def maybeWrap (env : Env) (callers : List Frame) (err : Option GoError) (opts : Options) :
    Option GoError :=
  match err with
  | none => none
  | some e =>
    match opts.WrapArguments with
    | [] => some e
    | Value.str format :: rest =>
      some (errorsWrapf env (ownFrame env "maybeWrap" "utils.go" 50 :: callers) e format rest)
    | first :: rest =>
      some (errorsWrap (ownFrame env "maybeWrap" "utils.go" 52 :: callers) e
        (env.Sprint (first :: rest)))

/-- Function `getGOPATHs`: the entries of `GOPATH`, or `go` under the home
directory; `none` is the panic raised when no home directory is found. -/
def getGOPATHs (env : Env) : Option (List String) :=
  let out := (SplitList env.GOPATH).filterMap (fun v =>
    if v = "" then none
    else
      let v1 := ReplaceChar v '\\' "/"
      if v1.data.getLast? = some '/' then some (String.mk v1.data.dropLast) else some v1)
  if out.length = 0 then
    match env.userHome with
    | none =>
      if env.HOME = "" then none
      else some [ReplaceChar (env.HOME ++ "/go") '\\' "/"]
    | some homeDir => some [ReplaceChar (homeDir ++ "/go") '\\' "/"]
  else some out

/-! ## options.go: registration and resolution -/

/-- Function `SetGlobalOptions`. -/
def SetGlobalOptions (reg : Registry) (opts : List Option') : Registry :=
  { reg with globalOptions := opts }

/-- Function `SetPackageLevelOptions`, called by the innermost frame of
`callers`. -/
def SetPackageLevelOptions (env : Env) (reg : Registry) (callers : List Frame)
    (opts : List Option') : Registry :=
  let pkg := callerPackageName env
    (ownFrame env "SetPackageLevelOptions" "options.go" 125 :: callers) 1
  { reg with pkgLocalOptions := fun k => if k = pkg then opts else reg.pkgLocalOptions k }

/-- The key that `applyOptions` looks up in `pkgLocalOptions` when it is
called by the innermost frame of `callers`. -/
def applyOptionsKey (env : Env) (callers : List Frame) : String :=
  callerPackageName env (ownFrame env "applyOptions" "options.go" 132 :: callers) 1

/-- The list `merged` that `applyOptions` builds. -/
def mergedOptions (env : Env) (reg : Registry) (callers : List Frame)
    (opts : List Option') : List Option' :=
  ([] ++ reg.globalOptions) ++ reg.pkgLocalOptions (applyOptionsKey env callers) ++ opts

/-- Function `applyOptions`, called by the innermost frame of `callers`. -/
def applyOptions (env : Env) (reg : Registry) (callers : List Frame)
    (opts : List Option') : Options :=
  (mergedOptions env reg callers opts).foldl (fun o optFn => optFn o) DefaultOptions

/-! ## stacktrace.go -/

/-- Constant `maxTraces`. -/
def maxTraces : Nat := 300

/-- Text of `fmt.Sprintf("%+v", t)` for a frame `t` of `github.com/pkg/errors`:
the function name, a newline and a tab, then the file path and the line. -/
def framePlusV (t : Frame) : String :=
  t.Function ++ "\n\t" ++ t.File ++ ":" ++ toString t.Line

/-- The entry that the loop of `Stacktrace` appends for a rendered frame.
`strings.Split` with a non-empty separator returns at least one piece, so
both index expressions are in range. -/
def traceEntry (trace : String) : String :=
  let fnName := (Split trace "\n\t").headD ""
  let paths := Split trace "/"
  let srcFile := paths.getLastD ""
  fnName ++ " (" ++ srcFile ++ ")"

/-- Loop of `Stacktrace` over the frames of the error. -/
def stacktraceLoop : List Frame → List String → List String
  | [], traceEntries => traceEntries
  | t :: ts, traceEntries =>
    let trace := framePlusV t
    if HasPrefix trace "runtime" then stacktraceLoop ts traceEntries
    else stacktraceLoop ts (traceEntries ++ [traceEntry trace])

/-- Function `Stacktrace(err, opt...)`, called by the innermost frame of
`callers`. -/
def Stacktrace (env : Env) (callers : List Frame) (err : Option GoError)
    (_opt : List Option') : List String :=
  match err.bind GoError.StackTrace with
  | none => [callerTrace env (ownFrame env "Stacktrace" "stacktrace.go" 26 :: callers) 1]
  | some st => stacktraceLoop st []

/-- Function `isNonProjectFile`. -/
def isNonProjectFile (goPaths : List String) (absSrcPath : String) : Bool :=
  goPaths.any (fun gopath => HasPrefix absSrcPath (filepathJoin gopath "pkg/mod"))

/-- Text of one frame in the simple trace. -/
def simpleEntry (frame : Frame) : String :=
  frame.Function ++ " (" ++ Base frame.File ++ ":" ++ toString frame.Line ++ ")"

/-- Loop of `simpleStacktrace`: `limit` is the number of iterations left and
the list holds the frames that `frames.Next()` has not returned yet. `Next`
reports `more = false` together with the last frame, and the loop breaks on
`!more` before it looks at that frame. -/
def simpleLoop (opts : Options) (goPaths : List String) :
    Nat → List Frame → List String → List String
  | 0, _, traces => traces
  | _ + 1, [], traces => traces
  | _ + 1, [_], traces => traces
  | limit + 1, frame :: next :: rest, traces =>
    if opts.SkipNonProjectFiles && isNonProjectFile goPaths frame.File then
      simpleLoop opts goPaths limit (next :: rest) traces
    else
      simpleLoop opts goPaths limit (next :: rest) (traces ++ [simpleEntry frame])

/-- Function `simpleStacktrace(skip, limit, opts)`, called by the innermost
frame of `callers`. -/
def simpleStacktrace (env : Env) (callers : List Frame) (skip limit : Nat)
    (opts : Options) : Option (List String) :=
  match getGOPATHs env with
  | none => none
  | some goPaths =>
    let pc := runtimeCallers (ownFrame env "simpleStacktrace" "stacktrace.go" 53 :: callers)
      (2 + skip) maxTraces
    if pc.length = 0 then some ["unknown"]
    else some (simpleLoop opts goPaths limit pc [])

/-- Function `detailedStacktrace(skip, limit, opts)`, called by the innermost
frame of `callers`. -/
def detailedStacktrace (env : Env) (callers : List Frame) (skip limit : Nat)
    (opts : Options) : Option (List String) :=
  match env.parseDump with
  | some err =>
    (simpleStacktrace env (ownFrame env "detailedStacktrace" "stacktrace.go" 85 :: callers)
      (skip + 1) limit opts).map
      (fun traces =>
        traces ++ ["warning: error occurred while dumping detailed stacktrace: " ++ err])
  | none =>
    match getGOPATHs env with
    | none => none
    | some goPaths => env.renderBuckets skip opts goPaths

/-- Function `stacktrace(skip, limit, opts)`, called by the innermost frame of
`callers`. -/
def stacktrace (env : Env) (callers : List Frame) (skip limit : Nat) (opts : Options) :
    Option (List String) :=
  if opts.DetailedStacktrace then
    detailedStacktrace env (ownFrame env "stacktrace" "stacktrace.go" 44 :: callers)
      (skip + 1) limit opts
  else
    simpleStacktrace env (ownFrame env "stacktrace" "stacktrace.go" 46 :: callers)
      (skip + 1) limit opts

/-- Loop of `formatStacktrace` in simple mode: `i` is the index of the next
trace line and `indented` the slice built so far. The expression
`indented[i:]` is in range only when `i` is at most `len(indented)`. -/
def formatLoop : Nat → List String → List String → Option (List String)
  | _, [], indented => some indented
  | i, trace :: rest, indented =>
    if HasPrefix trace "runtime.gopanic" then
      if i ≤ indented.length then formatLoop (i + 1) rest (indented.drop i) else none
    else formatLoop (i + 1) rest (indented ++ [Repeat " " 4 ++ trace])

/-- Function `formatStacktrace(traces, opts)`. -/
def formatStacktrace (traces : List String) (opts : Options) : Option String :=
  if !opts.DetailedStacktrace then
    (formatLoop 0 traces []).map (fun indented => Join indented "\n")
  else some ("\n" ++ Join traces "\n")

/-! ## panic.go -/

/-- Struct `PanicError`. -/
structure PanicError where
  Reason : String
  Stack : List String
  Options : Options

/-- Method `Pretty()`. -/
def PanicError.Pretty (pe : PanicError) : Option String :=
  (formatStacktrace pe.Stack pe.Options).map (fun st => pe.Reason ++ "\n" ++ st)

/-- Method `Error()`. -/
def PanicError.Error (pe : PanicError) : Option String :=
  pe.Pretty

/-- Constant `math.MaxInt32`. -/
def MaxInt32 : Nat := 2147483647

/-- Function `WrapPanic(recovered, opt...)`, called by the innermost frame of
`callers`. The outer `none` is a panic raised while the trace is captured;
`some none` is the `nil` result. -/
def WrapPanic (env : Env) (reg : Registry) (callers : List Frame) (recovered : Value)
    (opt : List Option') : Option (Option PanicError) :=
  match recovered with
  | Value.nil => some none
  | v =>
    let opts := applyOptions env reg (ownFrame env "WrapPanic" "panic.go" 38 :: callers) opt
    (stacktrace env (ownFrame env "WrapPanic" "panic.go" 41 :: callers) 0 MaxInt32 opts).map
      (fun stack => some { Reason := "panic: " ++ v.verbS, Stack := stack, Options := opts })

/-! ## closer.go and stopper.go -/

/-- Function `CloseWithErrCapture(c, capture, opts...)`, called by the innermost
frame of `callers`. The closer is its state `c` with its method `Close`; the
result is the state of the closer and the content of `*capture` afterwards. -/
def CloseWithErrCapture {σ : Type} (env : Env) (reg : Registry) (callers : List Frame)
    (Close : σ → Option GoError × σ) (c : σ) (capture : Option GoError)
    (opts : List Option') : σ × Option GoError :=
  let r := Close c
  if r.1.isSome && capture.isSome then
    let own := ownFrame env "CloseWithErrCapture" "closer.go" 11
    (r.2, maybeWrap env (own :: callers) r.1 (applyOptions env reg (own :: callers) opts))
  else (r.2, capture)

/-- Function `CloseWithLogOnErr(c, opts...)`, called by the innermost frame of
`callers`: the state of the closer and the log sink afterwards. -/
def CloseWithLogOnErr {σ : Type} (env : Env) (reg : Registry) (callers : List Frame)
    (Close : σ → Option GoError × σ) (c : σ) (opts : List Option') (sink : LogSink) :
    σ × LogSink :=
  let r := Close c
  match r.1 with
  | none => (r.2, sink)
  | some err =>
    let opt := applyOptions env reg
      (ownFrame env "CloseWithLogOnErr" "closer.go" 31 :: callers) opts
    match maybeWrap env (ownFrame env "CloseWithLogOnErr" "closer.go" 32 :: callers)
      (some err) opt with
    | none => (r.2, sink)
    | some wrapped => (r.2, opt.Logger wrapped.Error sink)

/-- Function `StopWithErrCapture(c, capture, opts...)`, called by the innermost
frame of `callers`. -/
def StopWithErrCapture {σ : Type} (env : Env) (reg : Registry) (callers : List Frame)
    (Stop : σ → Option GoError × σ) (c : σ) (capture : Option GoError)
    (opts : List Option') : σ × Option GoError :=
  let r := Stop c
  if r.1.isSome && capture.isSome then
    let own := ownFrame env "StopWithErrCapture" "stopper.go" 13
    (r.2, maybeWrap env (own :: callers) r.1 (applyOptions env reg (own :: callers) opts))
  else (r.2, capture)

/-- Function `StopWithErrLog(c, opts...)`, called by the innermost frame of
`callers`. -/
def StopWithErrLog {σ : Type} (env : Env) (reg : Registry) (callers : List Frame)
    (Stop : σ → Option GoError × σ) (c : σ) (opts : List Option') (sink : LogSink) :
    σ × LogSink :=
  let r := Stop c
  match r.1 with
  | none => (r.2, sink)
  | some err =>
    let opt := applyOptions env reg
      (ownFrame env "StopWithErrLog" "stopper.go" 33 :: callers) opts
    match maybeWrap env (ownFrame env "StopWithErrLog" "stopper.go" 34 :: callers)
      (some err) opt with
    | none => (r.2, sink)
    | some wrapped => (r.2, opt.Logger wrapped.Error sink)

/-- Struct `closerMock` of closer_test.go. -/
structure closerMock where
  CloseCalled : Nat
  ReturnError : Option GoError
  deriving DecidableEq

/-- Method `Close()` of `closerMock`. -/
def closerMock.Close (m : closerMock) : Option GoError × closerMock :=
  (m.ReturnError, { m with CloseCalled := m.CloseCalled + 1 })

/-! ## Properties used in the statements -/

/-- An option keeps a field when it returns every `Options` with that field
unchanged. -/
def keepsField {α : Type} (field : Options → α) (f : Option') : Prop :=
  ∀ o, field (f o) = field o

/-- Applying a list of options in order, as the loop of `applyOptions` does. -/
def applyAll (fs : List Option') (o : Options) : Options :=
  fs.foldl (fun acc optFn => optFn acc) o

/-- A trace line is the sentinel of `formatStacktrace` when it starts with
`runtime.gopanic`. -/
def isSentinel (trace : String) : Bool :=
  HasPrefix trace "runtime.gopanic"

/-- A trace line behind four spaces. -/
def indentLine (trace : String) : String :=
  "    " ++ trace

/-- Number of trace lines that start with `runtime.gopanic`. -/
def sentinelCount (traces : List String) : Nat :=
  (traces.filter isSentinel).length

/-- The options that `WrapPanic` resolves when it is called by the innermost
frame of `callers`. -/
def wrapPanicOptions (env : Env) (reg : Registry) (callers : List Frame)
    (opt : List Option') : Options :=
  applyOptions env reg (ownFrame env "WrapPanic" "panic.go" 38 :: callers) opt

/-! ## Example inputs -/

/-- An environment with no `GOPATH`, the home directory `/home/dev` and the
package stored in the module cache below it. -/
def exampleEnv : Env where
  GOPATH := ""
  userHome := some "/home/dev"
  HOME := "/home/dev"
  srcDir := "/home/dev/go/pkg/mod/github.com/therne/errorist@v0.1.0"
  Sprintf := fun format _ => format
  Sprint := fun _ => ""
  parseDump := none
  renderBuckets := fun _ _ _ => some []

/-- Call stack of a program whose function `main` of package
`example.com/app` is calling into this package. -/
def appCallers : List Frame :=
  [Frame.mk "example.com/app.main" "/home/dev/app/main.go" 12,
   Frame.mk "runtime.main" "/usr/local/go/src/runtime/proc.go" 250,
   Frame.mk "runtime.goexit" "/usr/local/go/src/runtime/asm_amd64.s" 1594]

/-- Call stack of a deferred function of `main` that calls `WrapPanic` after
`panicStation` wrote to a nil map, as in panic_test.go. -/
def panicCallers : List Frame :=
  [Frame.mk "example.com/app.main.func1" "/home/dev/app/main.go" 9,
   Frame.mk "runtime.gopanic" "/usr/local/go/src/runtime/panic.go" 884,
   Frame.mk "runtime.mapassign_faststr" "/usr/local/go/src/runtime/map_faststr.go" 205,
   Frame.mk "example.com/app.panicStation" "/home/dev/app/main.go" 20,
   Frame.mk "example.com/app.main" "/home/dev/app/main.go" 12,
   Frame.mk "runtime.main" "/usr/local/go/src/runtime/proc.go" 250,
   Frame.mk "runtime.goexit" "/usr/local/go/src/runtime/asm_amd64.s" 1594]

/-- Call stack of a deferred function of `main` that calls `WrapPanic` after a
second deferred function panicked while the first panic was unwinding. -/
def nestedPanicCallers : List Frame :=
  [Frame.mk "example.com/app.main.func1" "/home/dev/app/main.go" 9,
   Frame.mk "runtime.gopanic" "/usr/local/go/src/runtime/panic.go" 770,
   Frame.mk "example.com/app.main.func2" "/home/dev/app/main.go" 11,
   Frame.mk "runtime.gopanic" "/usr/local/go/src/runtime/panic.go" 770,
   Frame.mk "example.com/app.main" "/home/dev/app/main.go" 13,
   Frame.mk "runtime.main" "/usr/local/go/src/runtime/proc.go" 250,
   Frame.mk "runtime.goexit" "/usr/local/go/src/runtime/asm_amd64.s" 1594]

/-- The trace lines that the simple tracer captures on `nestedPanicCallers`. -/
def nestedPanicTrace : List String :=
  ["example.com/app.main.func1 (main.go:9)", "runtime.gopanic (panic.go:770)",
   "example.com/app.main.func2 (main.go:11)", "runtime.gopanic (panic.go:770)",
   "example.com/app.main (main.go:13)", "runtime.main (proc.go:250)"]

/-- An environment without `GOPATH`, without a current user and without
`HOME`. -/
def noHomeEnv : Env :=
  { exampleEnv with userHome := none, HOME := "" }

/-- Frames recorded by `errors.New("hello")` in `errWithPkgErrorsNew` of
stacktrace_test.go. -/
def helloFrames : List Frame :=
  [Frame.mk "github.com/therne/errorist.errWithPkgErrorsNew"
     "/home/dev/errorist/stacktrace_test.go" 41,
   Frame.mk "github.com/therne/errorist.TestStacktrace"
     "/home/dev/errorist/stacktrace_test.go" 13,
   Frame.mk "testing.tRunner" "/usr/local/go/src/testing/testing.go" 1439,
   Frame.mk "runtime.goexit" "/usr/local/go/src/runtime/asm_amd64.s" 1594]

/-- An error that has a cause of its own, as `errors.WithMessage(io.EOF,
"reading")` of `github.com/pkg/errors` makes it. -/
def readingErr : GoError :=
  GoError.withMessage (GoError.plain 7 "EOF") "reading"

/-- The registry after a function of some package called
`SetGlobalOptions(IncludedPackages("a1"))` and `main` of `example.com/app`
called `SetPackageLevelOptions(IncludedPackages("a2"))`. -/
def layeredRegistry : Registry :=
  SetPackageLevelOptions exampleEnv
    (SetGlobalOptions Registry.init [IncludedPackages ["a1"]])
    appCallers [IncludedPackages ["a2"]]

/-- The error `pkgErrors.New("test")` of closer_test.go. -/
def testErr : GoError :=
  GoError.fundamental 1 "test" []

/-- The error `pkgErrors.New("already present")` of closer_test.go. -/
def presentErr : GoError :=
  GoError.fundamental 2 "already present" []

/-! ## Resolution of options -/

theorem applyAll_append (fs gs : List Option') (o : Options) :
    applyAll (fs ++ gs) o = applyAll gs (applyAll fs o) := by
  simp [applyAll, List.foldl_append]

theorem applyAll_keeps {α : Type} (field : Options → α) (fs : List Option')
    (h : ∀ f ∈ fs, keepsField field f) (o : Options) :
    field (applyAll fs o) = field o := by
  induction fs generalizing o with
  | nil => rfl
  | cons f fs ih =>
    have hf : keepsField field f := h f (List.mem_cons_self f fs)
    have hrest : ∀ g ∈ fs, keepsField field g := fun g hg => h g (List.mem_cons_of_mem f hg)
    show field (applyAll fs (f o)) = field o
    rw [ih hrest (f o), hf o]

theorem applyOptions_eq_applyAll (env : Env) (reg : Registry) (callers : List Frame)
    (opts : List Option') :
    applyOptions env reg callers opts =
      applyAll opts (applyAll (reg.pkgLocalOptions (applyOptionsKey env callers))
        (applyAll reg.globalOptions DefaultOptions)) := by
  unfold applyOptions mergedOptions
  rw [List.nil_append]
  show applyAll _ DefaultOptions = _
  rw [applyAll_append, applyAll_append]

/-- The merge order of `applyOptions`, stated on the key that the function
looks up: it applies, to a copy of `DefaultOptions`, the global options, then
the options that `pkgLocalOptions` holds under `applyOptionsKey` (the empty
list when the map has no entry), then the call-site options, each in list
order. With `IncludedPackages` set to `A1` globally, `A2` under that key and
`A3` at the call site the result holds `A3`; without the call-site option it
holds `A2`; with only the global option it holds `A1`; a field that every
merged option keeps has its `DefaultOptions` value. Which package the key
names is the subject of `applyOptionsKey_entry_points`. -/
theorem applyOptions_layering (env : Env) (callers : List Frame) :
    (∀ (reg : Registry) (opts : List Option'),
      applyOptions env reg callers opts =
        applyAll opts (applyAll (reg.pkgLocalOptions (applyOptionsKey env callers))
          (applyAll reg.globalOptions DefaultOptions)))
    ∧ (Registry.init.pkgLocalOptions (applyOptionsKey env callers) = [])
    ∧ (∀ (reg : Registry) (A1 A2 A3 : List String),
        reg.globalOptions = [IncludedPackages A1] →
        reg.pkgLocalOptions (applyOptionsKey env callers) = [IncludedPackages A2] →
        (applyOptions env reg callers [IncludedPackages A3]).IncludedPackages = A3
        ∧ (applyOptions env reg callers []).IncludedPackages = A2)
    ∧ (∀ (reg : Registry) (A1 : List String),
        reg.globalOptions = [IncludedPackages A1] →
        reg.pkgLocalOptions (applyOptionsKey env callers) = [] →
        (applyOptions env reg callers []).IncludedPackages = A1)
    ∧ (∀ (α : Type) (field : Options → α) (reg : Registry) (opts : List Option'),
        (∀ f ∈ mergedOptions env reg callers opts, keepsField field f) →
        field (applyOptions env reg callers opts) = field DefaultOptions) := by
  refine ⟨fun reg opts => applyOptions_eq_applyAll env reg callers opts, rfl, ?_, ?_, ?_⟩
  · intro reg A1 A2 A3 hg hp
    constructor
    · rw [applyOptions_eq_applyAll, hg, hp]; rfl
    · rw [applyOptions_eq_applyAll, hg, hp]; rfl
  · intro reg A1 hg hp
    rw [applyOptions_eq_applyAll, hg, hp]; rfl
  · intro α field reg opts h
    exact applyAll_keeps field _ h DefaultOptions

/-- The merge order at a concrete input: three layers that set
`IncludedPackages`, with the package layer under every key, and the field
`SkipNonProjectFiles`, which none of them sets. -/
theorem applyOptions_layering_witness :
    (applyOptions exampleEnv
        { globalOptions := [IncludedPackages ["a1"]],
          pkgLocalOptions := fun _ => [IncludedPackages ["a2"]] }
        appCallers [IncludedPackages ["a3"]]).IncludedPackages = ["a3"]
    ∧ (applyOptions exampleEnv
        { globalOptions := [IncludedPackages ["a1"]],
          pkgLocalOptions := fun _ => [IncludedPackages ["a2"]] }
        appCallers [IncludedPackages ["a3"]]).SkipNonProjectFiles
        = DefaultOptions.SkipNonProjectFiles :=
  ⟨((applyOptions_layering exampleEnv appCallers).2.2.1
      { globalOptions := [IncludedPackages ["a1"]],
        pkgLocalOptions := fun _ => [IncludedPackages ["a2"]] }
      ["a1"] ["a2"] ["a3"] rfl rfl).1,
   (applyOptions_layering exampleEnv appCallers).2.2.2.2 Bool
      (fun o => o.SkipNonProjectFiles)
      { globalOptions := [IncludedPackages ["a1"]],
        pkgLocalOptions := fun _ => [IncludedPackages ["a2"]] }
      [IncludedPackages ["a3"]]
      (by
        intro f hf o
        simp only [mergedOptions, List.nil_append, List.mem_append, List.mem_cons,
          List.mem_singleton, List.not_mem_nil, or_false] at hf
        rcases hf with (h | h) | h <;> rw [h] <;> rfl)⟩

/-- Under each public entry point the key that `applyOptions` looks up is the
path of this package, whatever the frames of the program are: the frame at
depth `callerPackageName(1)` is the entry point itself. -/
theorem applyOptionsKey_entry_points (env : Env) (callers : List Frame) :
    applyOptionsKey env (ownFrame env "WrapPanic" "panic.go" 38 :: callers)
      = "github.com/therne/errorist"
    ∧ applyOptionsKey env (ownFrame env "CloseWithErrCapture" "closer.go" 11 :: callers)
      = "github.com/therne/errorist"
    ∧ applyOptionsKey env (ownFrame env "CloseWithLogOnErr" "closer.go" 31 :: callers)
      = "github.com/therne/errorist"
    ∧ applyOptionsKey env (ownFrame env "StopWithErrCapture" "stopper.go" 13 :: callers)
      = "github.com/therne/errorist"
    ∧ applyOptionsKey env (ownFrame env "StopWithErrLog" "stopper.go" 33 :: callers)
      = "github.com/therne/errorist" :=
  ⟨rfl, rfl, rfl, rfl, rfl⟩

/-- C2, at the failing input: `main` of package `example.com/app` registers
`WithDetailedTrace()` with `SetPackageLevelOptions` and then calls `WrapPanic`.
The options are stored under `example.com/app`, `applyOptions` looks up
`github.com/therne/errorist`, and the resolved options have
`DetailedStacktrace = false`. -/
theorem packageLevelOptions_key_mismatch :
    callerPackageName exampleEnv
        (ownFrame exampleEnv "SetPackageLevelOptions" "options.go" 125 :: appCallers) 1
      = "example.com/app"
    ∧ applyOptionsKey exampleEnv (ownFrame exampleEnv "WrapPanic" "panic.go" 38 :: appCallers)
      = "github.com/therne/errorist"
    ∧ (applyOptions exampleEnv
        (SetPackageLevelOptions exampleEnv Registry.init appCallers [WithDetailedTrace])
        (ownFrame exampleEnv "WrapPanic" "panic.go" 38 :: appCallers) []).DetailedStacktrace
      = false
    ∧ (WrapPanic exampleEnv
        (SetPackageLevelOptions exampleEnv Registry.init appCallers [WithDetailedTrace])
        appCallers (Value.str "boom") []).map
          (fun r => r.map (fun pe => pe.Options.DetailedStacktrace))
      = some (some false) := by
  refine ⟨by decide, by decide, by decide, by decide⟩

/-! ## closer.go -/

/-- With an empty capture slot `CloseWithErrCapture` calls `Close` once and
leaves the slot empty, whatever `Close` returns. -/
theorem CloseWithErrCapture_nil_slot {σ : Type} (env : Env) (reg : Registry)
    (callers : List Frame) (Close : σ → Option GoError × σ) (c : σ) (opts : List Option') :
    CloseWithErrCapture env reg callers Close c none opts = ((Close c).2, none) := by
  simp [CloseWithErrCapture]

/-- C3, at the failing input, the first case of `TestCloseWithErrCapture`: the
closer returns the error `test`, the capture slot holds `nil`, no option is
given. `Close` is called once and the slot still holds `nil`. -/
theorem CloseWithErrCapture_test_capture :
    CloseWithErrCapture exampleEnv Registry.init appCallers closerMock.Close
        { CloseCalled := 0, ReturnError := some testErr } none []
      = ({ CloseCalled := 1, ReturnError := some testErr }, none) := by
  decide

/-- C4, at the failing input, the second case of `TestCloseWithErrCapture`:
the closer returns the error `test` and the capture slot holds the error
`already present`. Afterwards the slot holds `test`, a different error. -/
theorem CloseWithErrCapture_test_present :
    CloseWithErrCapture exampleEnv Registry.init appCallers closerMock.Close
        { CloseCalled := 0, ReturnError := some testErr } (some presentErr) []
      = ({ CloseCalled := 1, ReturnError := some testErr }, some testErr)
    ∧ testErr ≠ presentErr := by
  decide

/-- C8, on every input: `IncludeNonProjectFiles` returns its argument with
`SkipNonProjectFiles = true`, so `applyOptions` with it as the only option
returns the default value `true` of the field. -/
theorem IncludeNonProjectFiles_sets_true :
    (∀ o : Options, (IncludeNonProjectFiles o).SkipNonProjectFiles = true)
    ∧ (∀ (env : Env) (callers : List Frame),
        (applyOptions env Registry.init callers [IncludeNonProjectFiles]).SkipNonProjectFiles
          = true)
    ∧ DefaultOptions.SkipNonProjectFiles = true :=
  ⟨fun _ => rfl, fun _ _ => rfl, rfl⟩

/-! ## Formatting of a simple trace -/

theorem formatLoop_append (before rest : List String)
    (h : ∀ t ∈ before, isSentinel t = false) (i : Nat) (indented : List String) :
    formatLoop i (before ++ rest) indented =
      formatLoop (i + before.length) rest (indented ++ before.map indentLine) := by
  induction before generalizing i indented with
  | nil => simp
  | cons t ts ih =>
    have ht : HasPrefix t "runtime.gopanic" = false := h t (List.mem_cons_self t ts)
    have hts : ∀ u ∈ ts, isSentinel u = false := fun u hu => h u (List.mem_cons_of_mem t hu)
    have hrep : Repeat " " 4 ++ t = indentLine t := rfl
    simp only [List.cons_append, formatLoop, ht, Bool.false_eq_true, if_false,
      List.length_cons, List.map_cons, hrep]
    have e := ih hts (i + 1) (indented ++ [indentLine t])
    simp only [List.append_assoc, List.singleton_append] at e
    have hi : i + 1 + ts.length = i + (ts.length + 1) := by omega
    rw [hi] at e
    exact e

theorem formatLoop_no_sentinel (traces : List String)
    (h : ∀ t ∈ traces, isSentinel t = false) (i : Nat) (indented : List String) :
    formatLoop i traces indented = some (indented ++ traces.map indentLine) := by
  have := formatLoop_append traces [] h i indented
  simpa [formatLoop] using this

theorem formatLoop_one_sentinel (before after : List String) (s : String)
    (hs : isSentinel s = true) (hb : ∀ t ∈ before, isSentinel t = false)
    (ha : ∀ t ∈ after, isSentinel t = false) :
    formatLoop 0 (before ++ s :: after) [] = some (after.map indentLine) := by
  have hs1 : HasPrefix s "runtime.gopanic" = true := hs
  rw [formatLoop_append before (s :: after) hb 0 []]
  simp only [List.nil_append, Nat.zero_add, formatLoop, hs1, if_true, List.length_map,
    Nat.le_refl]
  rw [formatLoop_no_sentinel after ha]
  simp [List.drop_eq_nil_of_le]

/-- C7: for a `PanicError` with `DetailedStacktrace` off, `Pretty()` is
`Reason`, a newline, and the indented lines joined by newlines: all lines of
`Stack` when none starts with `runtime.gopanic`, and the lines after the
sentinel, in their order, when exactly one line starts with it; the sentinel
and the lines before it are left out. -/
theorem Pretty_simple_mode (pe : PanicError) (hd : pe.Options.DetailedStacktrace = false) :
    ((∀ t ∈ pe.Stack, isSentinel t = false) →
      pe.Pretty = some (pe.Reason ++ "\n" ++ Join (pe.Stack.map indentLine) "\n"))
    ∧ (∀ (before after : List String) (s : String),
        pe.Stack = before ++ s :: after → isSentinel s = true →
        (∀ t ∈ before, isSentinel t = false) → (∀ t ∈ after, isSentinel t = false) →
        pe.Pretty = some (pe.Reason ++ "\n" ++ Join (after.map indentLine) "\n")) := by
  constructor
  · intro h
    simp [PanicError.Pretty, formatStacktrace, hd, formatLoop_no_sentinel pe.Stack h]
  · intro before after s hst hs hb ha
    simp [PanicError.Pretty, formatStacktrace, hd, hst, formatLoop_one_sentinel before after s hs hb ha]

/-- C7, at a concrete input: two frames of the recovery, the sentinel, and two
frames of the program. -/
theorem Pretty_simple_mode_witness :
    PanicError.Pretty
        { Reason := "panic: boom",
          Stack := ["errorist.WrapPanic (panic.go:41)", "app.main.func1 (main.go:9)",
            "runtime.gopanic (panic.go:884)", "app.work (main.go:20)", "app.main (main.go:12)"],
          Options := DefaultOptions }
      = some ("panic: boom" ++ "\n" ++
          Join (["app.work (main.go:20)", "app.main (main.go:12)"].map indentLine) "\n") :=
  (Pretty_simple_mode
      { Reason := "panic: boom",
        Stack := ["errorist.WrapPanic (panic.go:41)", "app.main.func1 (main.go:9)",
          "runtime.gopanic (panic.go:884)", "app.work (main.go:20)", "app.main (main.go:12)"],
        Options := DefaultOptions } rfl).2
    ["errorist.WrapPanic (panic.go:41)", "app.main.func1 (main.go:9)"]
    ["app.work (main.go:20)", "app.main (main.go:12)"]
    "runtime.gopanic (panic.go:884)" rfl (by decide) (by decide) (by decide)

/-! ## Package `strings` -/

theorem isPrefixOf_append_self (a b : List Char) : a.isPrefixOf (a ++ b) = true := by
  induction a with
  | nil => simp [List.isPrefixOf]
  | cons c cs ih => simp [List.isPrefixOf, ih]

theorem HasPrefix_append (a b : String) : HasPrefix (a ++ b) a = true := by
  simp [HasPrefix, isPrefixOf_append_self]

theorem splitGo_ne_nil (sep : List Char) (skip : Nat) (s cur : List Char) :
    splitGo sep skip s cur ≠ [] := by
  induction s generalizing skip cur with
  | nil => cases skip <;> simp [splitGo]
  | cons c cs ih =>
    cases skip with
    | zero =>
      simp only [splitGo]
      split
      · simp
      · exact ih 0 (c :: cur)
    | succ n => simpa [splitGo] using ih n cur

/-- With a non-empty separator `strings.Split` returns at least one piece. -/
theorem Split_ne_nil (s sep : String) (h : sep.data ≠ []) : Split s sep ≠ [] := by
  simp [Split, h, splitGo_ne_nil]

theorem splitGo_head (name rest cur : List Char) (h : '\n' ∉ name) :
    (splitGo ['\n', '\t'] 0 (name ++ '\n' :: '\t' :: rest) cur).head?
      = some (cur.reverse ++ name) := by
  induction name generalizing cur with
  | nil => simp [splitGo, List.isPrefixOf]
  | cons c cs ih =>
    have hc : ('\n' == c) = false := by
      have : '\n' ≠ c := fun e => h (e ▸ List.mem_cons_self _ _)
      simpa using this
    have hcs : '\n' ∉ cs := fun m => h (List.mem_cons_of_mem c m)
    simp only [List.cons_append, splitGo, List.isPrefixOf, hc, Bool.false_and,
      Bool.false_eq_true, if_false]
    have e := ih (c :: cur) hcs
    simp only [List.reverse_cons, List.append_assoc, List.singleton_append] at e
    exact e

/-- The first piece of a rendered frame is the function name, when the name
holds no newline. -/
theorem Split_framePlusV_head (t : Frame) (h : '\n' ∉ t.Function.data) :
    (Split (framePlusV t) "\n\t").headD "" = t.Function := by
  have hsep : ("\n\t" : String).data = ['\n', '\t'] := rfl
  have hd : (framePlusV t).data
      = t.Function.data ++ '\n' :: '\t' :: (t.File.data ++ (":" : String).data
          ++ (toString t.Line).data) := by
    simp [framePlusV, hsep]
  have hh := splitGo_head t.Function.data
    (t.File.data ++ (":" : String).data ++ (toString t.Line).data) [] h
  simp only [Split, hsep, hd]
  rw [if_neg (by simp)]
  cases hsp : splitGo ['\n', '\t'] 0 (t.Function.data ++ '\n' :: '\t' ::
      (t.File.data ++ (":" : String).data ++ (toString t.Line).data)) [] with
  | nil => rw [hsp] at hh; simp at hh
  | cons x xs =>
    rw [hsp] at hh
    simp at hh
    simp [hh]

/-! ## Stacktrace of a wrapped error -/

theorem traceEntry_starts (t : Frame) (h : '\n' ∉ t.Function.data) :
    HasPrefix (traceEntry (framePlusV t)) t.Function = true := by
  unfold traceEntry
  simp only [Split_framePlusV_head t h]
  rw [String.append_assoc, String.append_assoc]
  exact HasPrefix_append _ _

theorem stacktraceLoop_eq (frames : List Frame) (acc : List String) :
    stacktraceLoop frames acc =
      acc ++ (frames.filter (fun t => !HasPrefix (framePlusV t) "runtime")).map
        (fun t => traceEntry (framePlusV t)) := by
  induction frames generalizing acc with
  | nil => simp [stacktraceLoop]
  | cons t ts ih =>
    by_cases hp : HasPrefix (framePlusV t) "runtime" = true
    · simp [stacktraceLoop, hp, ih]
    · simp [stacktraceLoop, hp, ih]

/-- C6: for an error that exposes the stack trace `frames` of
`github.com/pkg/errors` (function names hold no newline), `Stacktrace` returns
one line for each frame whose `%+v` rendering does not start with `runtime`,
in frame order, and drops the other frames; each line starts with the function
name of its frame. When no rendering starts with `runtime` there are as many
lines as frames and line `i` starts with the function name of frame `i`. -/
theorem Stacktrace_pkg_errors (env : Env) (callers : List Frame) (err : GoError)
    (frames : List Frame) (opt : List Option')
    (hst : err.StackTrace = some frames)
    (hwf : ∀ t ∈ frames, '\n' ∉ t.Function.data) :
    Stacktrace env callers (some err) opt =
        (frames.filter (fun t => !HasPrefix (framePlusV t) "runtime")).map
          (fun t => traceEntry (framePlusV t))
    ∧ (∀ t ∈ frames, HasPrefix (traceEntry (framePlusV t)) t.Function = true)
    ∧ ((∀ t ∈ frames, HasPrefix (framePlusV t) "runtime" = false) →
        (Stacktrace env callers (some err) opt).length = frames.length
        ∧ ∀ (i : Nat) (hi : i < frames.length),
            ∃ line, (Stacktrace env callers (some err) opt)[i]? = some line
              ∧ HasPrefix line (frames.get ⟨i, hi⟩).Function = true) := by
  have hS : Stacktrace env callers (some err) opt =
      (frames.filter (fun t => !HasPrefix (framePlusV t) "runtime")).map
        (fun t => traceEntry (framePlusV t)) := by
    simp [Stacktrace, hst, stacktraceLoop_eq]
  refine ⟨hS, fun t ht => traceEntry_starts t (hwf t ht), ?_⟩
  intro hkeep
  have hfilter : frames.filter (fun t => !HasPrefix (framePlusV t) "runtime") = frames := by
    apply List.filter_eq_self.mpr
    intro t ht
    simp [hkeep t ht]
  rw [hS, hfilter]
  refine ⟨by simp, ?_⟩
  intro i hi
  refine ⟨traceEntry (framePlusV (frames.get ⟨i, hi⟩)), ?_, ?_⟩
  · simp [List.getElem?_map, List.getElem?_eq_getElem hi]
  · exact traceEntry_starts _ (hwf _ (List.get_mem frames i hi))

/-- C6, at a concrete input: the four frames of the error made by
`errors.New("hello")` in the test; the frame of `runtime.goexit` is dropped. -/
theorem Stacktrace_pkg_errors_witness :
    Stacktrace exampleEnv appCallers (some (GoError.fundamental 3 "hello" helloFrames)) [] =
      (helloFrames.filter (fun t => !HasPrefix (framePlusV t) "runtime")).map
        (fun t => traceEntry (framePlusV t)) :=
  (Stacktrace_pkg_errors exampleEnv appCallers (GoError.fundamental 3 "hello" helloFrames)
    helloFrames [] rfl (by decide)).1

/-! ## Wrapping with context -/

theorem GoError.Is_self (e : GoError) : e.Is e = true := by
  cases e <;> simp [GoError.Is]

theorem GoError.Cause_of_no_cause (e : GoError) (h : e.causeOf = none) : e.Cause = e := by
  cases e <;> simp [GoError.causeOf] at h <;> rfl

/-- C10, amended: for a non-nil error `e`, `maybeWrap(e, o)` with `o` the options after
`Wrapf(f, args...)` returns an error whose message is `f` formatted with
`args`, then a colon and a blank, then the message of `e`, and which wraps
`e`: `e` is the cause held by the message layer under the stack layer,
`errors.Cause` of the result is `errors.Cause(e)`, which is `e` itself when
`e` has no `Cause` method, and `errors.Is(result, e)` holds. -/
theorem maybeWrap_Wrapf (env : Env) (callers : List Frame) (e : GoError) (f : String)
    (args : List Value) (o : Options) :
    ∃ r, maybeWrap env callers (some e) (Wrapf f args o) = some r
      ∧ r.Error = env.Sprintf f args ++ ": " ++ e.Error
      ∧ r.causeOf.bind GoError.causeOf = some e
      ∧ r.Cause = e.Cause
      ∧ (e.causeOf = none → r.Cause = e)
      ∧ r.Is e = true := by
  refine ⟨errorsWrapf env (ownFrame env "maybeWrap" "utils.go" 50 :: callers) e f args,
    rfl, rfl, rfl, rfl, ?_, ?_⟩
  · intro h
    exact GoError.Cause_of_no_cause e h
  · simp [errorsWrapf, GoError.Is, GoError.Is_self]

/-- C10, amended, at the input of the test: `Wrapf("closing some")` around the error
`test` gives the message `closing some: test` with cause the error `test`. -/
theorem maybeWrap_Wrapf_witness :
    ∃ r, maybeWrap exampleEnv appCallers (some testErr)
        (Wrapf "closing some" [] DefaultOptions) = some r
      ∧ r.Error = "closing some: test" ∧ r.Cause = testErr := by
  obtain ⟨r, h1, h2, _, _, h5, _⟩ :=
    maybeWrap_Wrapf exampleEnv appCallers testErr "closing some" [] DefaultOptions
  exact ⟨r, h1, h2.trans (by decide), h5 rfl⟩

/-! ## Wrapping a recovered panic -/

theorem sentinel_split (traces : List String) (h : sentinelCount traces ≤ 1) :
    (∀ t ∈ traces, isSentinel t = false)
    ∨ ∃ (before after : List String) (s : String),
        traces = before ++ s :: after ∧ isSentinel s = true
        ∧ (∀ t ∈ before, isSentinel t = false) ∧ (∀ t ∈ after, isSentinel t = false) := by
  induction traces with
  | nil => left; simp
  | cons t ts ih =>
    by_cases ht : isSentinel t = true
    · right
      have hts : (ts.filter isSentinel).length = 0 := by
        simp [sentinelCount, List.filter_cons, ht] at h
        simpa using h
      have hnone : ∀ u ∈ ts, isSentinel u = false := by
        intro u hu
        by_contra hne
        have hmem : u ∈ ts.filter isSentinel := by
          simp [List.mem_filter, hu]
          simpa using hne
        rw [List.length_eq_zero.mp hts] at hmem
        exact absurd hmem (List.not_mem_nil u)
      exact ⟨[], ts, t, rfl, ht, by simp, hnone⟩
    · have htf : isSentinel t = false := by simpa using ht
      have hle : sentinelCount ts ≤ 1 := by
        simpa [sentinelCount, List.filter_cons, htf] using h
      rcases ih hle with hall | ⟨before, after, s, hts, hs, hb, ha⟩
      · left
        intro u hu
        rcases List.mem_cons.mp hu with rfl | hu
        · exact htf
        · exact hall u hu
      · right
        refine ⟨t :: before, after, s, by simp [hts], hs, ?_, ha⟩
        intro u hu
        rcases List.mem_cons.mp hu with rfl | hu
        · exact htf
        · exact hb u hu

/-- In simple mode the formatted trace exists when at most one line starts
with `runtime.gopanic`. -/
theorem formatStacktrace_simple_some (traces : List String) (opts : Options)
    (hd : opts.DetailedStacktrace = false) (h : sentinelCount traces ≤ 1) :
    ∃ st, formatStacktrace traces opts = some st := by
  rcases sentinel_split traces h with hall | ⟨before, after, s, hts, hs, hb, ha⟩
  · exact ⟨Join (traces.map indentLine) "\n",
      by simp [formatStacktrace, hd, formatLoop_no_sentinel traces hall]⟩
  · exact ⟨Join (after.map indentLine) "\n",
      by simp [formatStacktrace, hd, hts, formatLoop_one_sentinel before after s hs hb ha]⟩

theorem simpleStacktrace_some (env : Env) (callers : List Frame) (skip limit : Nat)
    (opts : Options) (goPaths : List String) (h : getGOPATHs env = some goPaths) :
    ∃ stack, simpleStacktrace env callers skip limit opts = some stack := by
  unfold simpleStacktrace
  rw [h]
  simp only
  split
  · exact ⟨_, rfl⟩
  · exact ⟨_, rfl⟩

/-- With the recovered value non-nil and the trace captured, `WrapPanic`
returns the error built from the reason, the trace and the resolved options. -/
theorem WrapPanic_of_stack (env : Env) (reg : Registry) (callers : List Frame) (v : Value)
    (opt : List Option') (hv : v ≠ Value.nil) (stack : List String)
    (hstack : stacktrace env (ownFrame env "WrapPanic" "panic.go" 41 :: callers) 0 MaxInt32
      (wrapPanicOptions env reg callers opt) = some stack) :
    WrapPanic env reg callers v opt =
      some (some { Reason := "panic: " ++ v.verbS, Stack := stack,
                   Options := wrapPanicOptions env reg callers opt }) := by
  cases v with
  | nil => exact absurd rfl hv
  | str x =>
    simp only [WrapPanic]
    rw [show applyOptions env reg (ownFrame env "WrapPanic" "panic.go" 38 :: callers) opt
      = wrapPanicOptions env reg callers opt from rfl, hstack]
    rfl
  | other n r =>
    simp only [WrapPanic]
    rw [show applyOptions env reg (ownFrame env "WrapPanic" "panic.go" 38 :: callers) opt
      = wrapPanicOptions env reg callers opt from rfl, hstack]
    rfl

/-- Without a captured trace `WrapPanic` on a non-nil value does not return. -/
theorem WrapPanic_of_no_stack (env : Env) (reg : Registry) (callers : List Frame) (v : Value)
    (opt : List Option') (hv : v ≠ Value.nil)
    (hstack : stacktrace env (ownFrame env "WrapPanic" "panic.go" 41 :: callers) 0 MaxInt32
      (wrapPanicOptions env reg callers opt) = none) :
    WrapPanic env reg callers v opt = none := by
  cases v with
  | nil => exact absurd rfl hv
  | str x =>
    simp only [WrapPanic]
    rw [show applyOptions env reg (ownFrame env "WrapPanic" "panic.go" 38 :: callers) opt
      = wrapPanicOptions env reg callers opt from rfl, hstack]
    rfl
  | other n r =>
    simp only [WrapPanic]
    rw [show applyOptions env reg (ownFrame env "WrapPanic" "panic.go" 38 :: callers) opt
      = wrapPanicOptions env reg callers opt from rfl, hstack]
    rfl

/-- The text of `Pretty()` and `Error()` when the formatted trace exists. -/
theorem Pretty_of_format (pe : PanicError) (st : String)
    (h : formatStacktrace pe.Stack pe.Options = some st) :
    pe.Pretty = some (pe.Reason ++ "\n" ++ st)
    ∧ pe.Error = some (pe.Reason ++ "\n" ++ st)
    ∧ HasPrefix (pe.Reason ++ "\n" ++ st) pe.Reason = true := by
  refine ⟨by simp [PanicError.Pretty, h], by simp [PanicError.Error, PanicError.Pretty, h], ?_⟩
  rw [String.append_assoc]
  exact HasPrefix_append _ _

/-- The formatted trace exists in detailed mode, and in simple mode when at
most one line starts with `runtime.gopanic`. -/
theorem formatStacktrace_some (traces : List String) (opts : Options)
    (h : opts.DetailedStacktrace = true ∨ sentinelCount traces ≤ 1) :
    ∃ st, formatStacktrace traces opts = some st := by
  cases hd : opts.DetailedStacktrace with
  | true => exact ⟨"\n" ++ Join traces "\n", by simp [formatStacktrace, hd]⟩
  | false =>
    rcases h with h | h
    · rw [hd] at h; exact absurd h (by simp)
    · exact formatStacktrace_simple_some traces opts hd h

/-- C5, amended: `WrapPanic` returns `nil` exactly when the recovered value is
`nil`. For a non-nil value `v` it returns a `PanicError` when `getGOPATHs`
finds its paths and the resolved options have `DetailedStacktrace` off, and
in either mode when the trace is captured. Every `PanicError` it returns has
the `Reason` made of `panic: ` and the string form of `v`; when
`DetailedStacktrace` is on, or the `Stack` has at most one line starting with
`runtime.gopanic`, `Pretty()` and `Error()` return `Reason`, a newline and the
formatted trace, a text that begins with `Reason` and so holds the string form
of `v`. -/
theorem WrapPanic_result (env : Env) (reg : Registry) (callers : List Frame) (v : Value)
    (opt : List Option') :
    (WrapPanic env reg callers v opt = some none ↔ v = Value.nil)
    ∧ (v ≠ Value.nil → ∀ goPaths, getGOPATHs env = some goPaths →
        (wrapPanicOptions env reg callers opt).DetailedStacktrace = false →
        ∃ pe, WrapPanic env reg callers v opt = some (some pe))
    ∧ (v ≠ Value.nil → ∀ stack,
        stacktrace env (ownFrame env "WrapPanic" "panic.go" 41 :: callers) 0 MaxInt32
          (wrapPanicOptions env reg callers opt) = some stack →
        WrapPanic env reg callers v opt =
          some (some { Reason := "panic: " ++ v.verbS, Stack := stack,
                       Options := wrapPanicOptions env reg callers opt }))
    ∧ (∀ pe, WrapPanic env reg callers v opt = some (some pe) →
        pe.Reason = "panic: " ++ v.verbS
        ∧ pe.Options = wrapPanicOptions env reg callers opt
        ∧ (pe.Options.DetailedStacktrace = true ∨ sentinelCount pe.Stack ≤ 1 →
            ∃ st, pe.Pretty = some (pe.Reason ++ "\n" ++ st)
              ∧ pe.Error = some (pe.Reason ++ "\n" ++ st)
              ∧ HasPrefix (pe.Reason ++ "\n" ++ st) pe.Reason = true
              ∧ pe.Reason ++ "\n" ++ st = "panic: " ++ (v.verbS ++ ("\n" ++ st)))) := by
  have hnil : WrapPanic env reg callers v opt = some none → v = Value.nil := by
    intro h
    by_contra hv
    cases hs : stacktrace env (ownFrame env "WrapPanic" "panic.go" 41 :: callers) 0 MaxInt32
      (wrapPanicOptions env reg callers opt) with
    | none => rw [WrapPanic_of_no_stack env reg callers v opt hv hs] at h; simp at h
    | some stack => rw [WrapPanic_of_stack env reg callers v opt hv stack hs] at h; simp at h
  refine ⟨⟨hnil, fun h => by subst h; rfl⟩, ?_,
    fun hv stack hs => WrapPanic_of_stack env reg callers v opt hv stack hs, ?_⟩
  · intro hv goPaths hgp hd
    obtain ⟨stack, hstack⟩ := simpleStacktrace_some env
      (ownFrame env "stacktrace" "stacktrace.go" 46 :: ownFrame env "WrapPanic" "panic.go" 41
        :: callers) (0 + 1) MaxInt32 (wrapPanicOptions env reg callers opt) goPaths hgp
    have hst : stacktrace env (ownFrame env "WrapPanic" "panic.go" 41 :: callers) 0 MaxInt32
        (wrapPanicOptions env reg callers opt) = some stack := by
      simp only [stacktrace, hd, Bool.false_eq_true, if_false]
      exact hstack
    exact ⟨_, WrapPanic_of_stack env reg callers v opt hv stack hst⟩
  · intro pe hpe
    have hv : v ≠ Value.nil := by
      intro h
      subst h
      simp [WrapPanic] at hpe
    cases hs : stacktrace env (ownFrame env "WrapPanic" "panic.go" 41 :: callers) 0 MaxInt32
      (wrapPanicOptions env reg callers opt) with
    | none => rw [WrapPanic_of_no_stack env reg callers v opt hv hs] at hpe; simp at hpe
    | some stack =>
      rw [WrapPanic_of_stack env reg callers v opt hv stack hs] at hpe
      have hpe2 : pe = PanicError.mk ("panic: " ++ v.verbS) stack
          (wrapPanicOptions env reg callers opt) := by
        simpa using hpe.symm
      subst hpe2
      refine ⟨rfl, rfl, ?_⟩
      intro hcond
      obtain ⟨st, hfmt⟩ := formatStacktrace_some stack
        (wrapPanicOptions env reg callers opt) hcond
      obtain ⟨h1, h2, h3⟩ := Pretty_of_format
        (PanicError.mk ("panic: " ++ v.verbS) stack (wrapPanicOptions env reg callers opt))
        st hfmt
      exact ⟨st, h1, h2, h3, by simp [String.append_assoc]⟩

/-- C5, at a concrete input: the panic of `panicStation`, recovered in a
deferred function of `main`. -/
theorem WrapPanic_result_witness :
    ∃ pe, WrapPanic exampleEnv Registry.init panicCallers (Value.str "boom") [] = some (some pe)
      ∧ pe.Reason = "panic: boom"
      ∧ ∃ st, pe.Pretty = some ("panic: boom" ++ "\n" ++ st) := by
  obtain ⟨pe, hw⟩ :=
    (WrapPanic_result exampleEnv Registry.init panicCallers (Value.str "boom") []).2.1
      (by simp) ["/home/dev/go"] (by decide) (by decide)
  obtain ⟨hr, _, hp⟩ :=
    (WrapPanic_result exampleEnv Registry.init panicCallers (Value.str "boom") []).2.2.2 pe hw
  have hstack : pe.Stack =
      ["example.com/app.main.func1 (main.go:9)", "runtime.gopanic (panic.go:884)",
       "runtime.mapassign_faststr (map_faststr.go:205)",
       "example.com/app.panicStation (main.go:20)", "example.com/app.main (main.go:12)",
       "runtime.main (proc.go:250)"] := by
    have h2 : (WrapPanic exampleEnv Registry.init panicCallers (Value.str "boom") []).map
        (fun r => r.map PanicError.Stack) = some (some
          ["example.com/app.main.func1 (main.go:9)", "runtime.gopanic (panic.go:884)",
           "runtime.mapassign_faststr (map_faststr.go:205)",
           "example.com/app.panicStation (main.go:20)", "example.com/app.main (main.go:12)",
           "runtime.main (proc.go:250)"]) := by decide
    rw [hw] at h2
    simpa using h2
  have hcount : sentinelCount pe.Stack ≤ 1 := by
    rw [hstack]
    decide
  obtain ⟨st, hpretty, _, _, _⟩ := hp (Or.inr hcount)
  refine ⟨pe, hw, hr, st, ?_⟩
  rw [hpretty, hr]
  rfl

/-- C5, counterexample: with no `GOPATH`, no current user and no `HOME`,
`WrapPanic` on the non-nil value `boom` does not return: `getGOPATHs` panics
while the trace is captured. -/
theorem WrapPanic_no_home :
    Value.str "boom" ≠ Value.nil
    ∧ WrapPanic noHomeEnv Registry.init panicCallers (Value.str "boom") [] = none := by
  refine ⟨by simp, ?_⟩
  have h : (WrapPanic noHomeEnv Registry.init panicCallers (Value.str "boom") []).isNone
      = true := by decide
  simpa using h

/-- A panic raised while another one unwinds leaves two lines that start with
`runtime.gopanic` in the captured trace; `WrapPanic` returns the error, and
`Pretty()` and `Error()` fail on the slice expression of `formatStacktrace`. -/
theorem WrapPanic_nested_panic :
    (WrapPanic exampleEnv Registry.init nestedPanicCallers (Value.str "second") []).map
        (fun r => r.map (fun pe => (pe.Reason, sentinelCount pe.Stack, pe.Pretty, pe.Error)))
      = some (some ("panic: second", 2, none, none)) := by
  decide

/-! ## The simple tracer and `IncludedPackages` -/

theorem simpleLoop_IncludedPackages (opts : Options) (pkgs goPaths : List String)
    (limit : Nat) (frames : List Frame) (traces : List String) :
    simpleLoop { opts with IncludedPackages := pkgs } goPaths limit frames traces
      = simpleLoop opts goPaths limit frames traces := by
  induction limit generalizing frames traces with
  | zero => simp [simpleLoop]
  | succ n ih =>
    match frames with
    | [] => simp [simpleLoop]
    | [_] => simp [simpleLoop]
    | f :: g :: rest => simp [simpleLoop, ih]

/-- The simple tracer returns the same lines whatever `IncludedPackages`
holds. -/
theorem simpleStacktrace_IncludedPackages (env : Env) (callers : List Frame)
    (skip limit : Nat) (opts : Options) (pkgs : List String) :
    simpleStacktrace env callers skip limit { opts with IncludedPackages := pkgs }
      = simpleStacktrace env callers skip limit opts := by
  simp [simpleStacktrace, simpleLoop_IncludedPackages]

/-- C9, at the failing input: `WrapPanic` is called with
`IncludedPackages("github.com/therne/errorist")` after the panic of
`panicStation`. The resolved options hold that one entry; the frame of
`github.com/therne/errorist.WrapPanic` is visited and has the entry as a
prefix, yet it is dropped by the GOPATH check; the six returned lines name
functions of `example.com/app` and `runtime`, none with the entry as a
prefix. -/
theorem simpleStacktrace_IncludedPackages_example :
    (wrapPanicOptions exampleEnv Registry.init panicCallers
        [IncludedPackages ["github.com/therne/errorist"]]).IncludedPackages
      = ["github.com/therne/errorist"]
    ∧ simpleStacktrace exampleEnv
        (ownFrame exampleEnv "stacktrace" "stacktrace.go" 46
          :: ownFrame exampleEnv "WrapPanic" "panic.go" 41 :: panicCallers)
        1 MaxInt32
        (wrapPanicOptions exampleEnv Registry.init panicCallers
          [IncludedPackages ["github.com/therne/errorist"]])
      = some
        ["example.com/app.main.func1 (main.go:9)", "runtime.gopanic (panic.go:884)",
         "runtime.mapassign_faststr (map_faststr.go:205)",
         "example.com/app.panicStation (main.go:20)", "example.com/app.main (main.go:12)",
         "runtime.main (proc.go:250)"]
    ∧ HasPrefix (ownFrame exampleEnv "WrapPanic" "panic.go" 41).Function
        "github.com/therne/errorist" = true
    ∧ HasPrefix "runtime.gopanic" "github.com/therne/errorist" = false := by
  decide

/-! ## Bounds of the slice expression in `formatStacktrace` -/

/-- In simple mode the loop fails at the second line that starts with
`runtime.gopanic`: after the first one the slice is empty, it then holds only
the lines in between, and the index of the second one is larger than that. -/
theorem formatLoop_two_sentinels (before mid after : List String) (s1 s2 : String)
    (h1 : isSentinel s1 = true) (h2 : isSentinel s2 = true)
    (hb : ∀ t ∈ before, isSentinel t = false) (hm : ∀ t ∈ mid, isSentinel t = false) :
    formatLoop 0 (before ++ s1 :: (mid ++ s2 :: after)) [] = none := by
  have e1 : HasPrefix s1 "runtime.gopanic" = true := h1
  have e2 : HasPrefix s2 "runtime.gopanic" = true := h2
  rw [formatLoop_append before (s1 :: (mid ++ s2 :: after)) hb 0 []]
  simp only [List.nil_append, Nat.zero_add, formatLoop, e1, if_true, List.length_map,
    Nat.le_refl]
  rw [formatLoop_append mid (s2 :: after) hm]
  have hlen : ¬ (before.length + 1 + mid.length ≤
      (List.drop before.length (List.map indentLine before) ++ List.map indentLine mid).length) := by
    simp [List.drop_eq_nil_of_le]
  simp only [formatLoop, e2, if_true, hlen, if_false]

/-- In simple mode `formatStacktrace`, `Pretty()` and `Error()` fail on a
trace with two lines that start with `runtime.gopanic` and none before the
second one besides the first. -/
theorem Pretty_two_sentinels (pe : PanicError) (before mid after : List String)
    (s1 s2 : String) (hd : pe.Options.DetailedStacktrace = false)
    (hst : pe.Stack = before ++ s1 :: (mid ++ s2 :: after))
    (h1 : isSentinel s1 = true) (h2 : isSentinel s2 = true)
    (hb : ∀ t ∈ before, isSentinel t = false) (hm : ∀ t ∈ mid, isSentinel t = false) :
    formatStacktrace pe.Stack pe.Options = none ∧ pe.Pretty = none ∧ pe.Error = none := by
  have hf : formatStacktrace pe.Stack pe.Options = none := by
    simp [formatStacktrace, hd, hst, formatLoop_two_sentinels before mid after s1 s2 h1 h2 hb hm]
  exact ⟨hf, by simp [PanicError.Pretty, hf], by simp [PanicError.Error, PanicError.Pretty, hf]⟩

/-- C11, at the failing input: a deferred function of `main` panics while a
first panic unwinds, and the outer deferred function calls `WrapPanic` with
the default options. The captured trace has two lines that start with
`runtime.gopanic`; on it `formatStacktrace` fails at the slice expression
`indented[i:]` (index 3, length 1), and so do `Pretty()` and `Error()` of the
returned error. -/
theorem formatStacktrace_nested_panic :
    (WrapPanic exampleEnv Registry.init nestedPanicCallers (Value.str "second") []).map
        (fun r => r.map (fun pe => (pe.Stack, pe.Options.DetailedStacktrace)))
      = some (some (nestedPanicTrace, false))
    ∧ formatLoop 3 ["runtime.gopanic (panic.go:770)", "example.com/app.main (main.go:13)",
          "runtime.main (proc.go:250)"] ["    example.com/app.main.func2 (main.go:11)"]
      = none
    ∧ formatStacktrace nestedPanicTrace DefaultOptions = none
    ∧ PanicError.Pretty
        { Reason := "panic: second", Stack := nestedPanicTrace, Options := DefaultOptions }
      = none
    ∧ PanicError.Error
        { Reason := "panic: second", Stack := nestedPanicTrace, Options := DefaultOptions }
      = none := by
  decide

/-! ## The three layers, end to end -/

/-- C1, at the failing input: `IncludedPackages("a1")` is set globally and
`main` of `example.com/app` registers `IncludedPackages("a2")` with
`SetPackageLevelOptions`. The map holds the option under `example.com/app`.
When `main` then calls `WrapPanic` without a call-site option, `applyOptions`
merges the global option only and the result holds `a1`, not `a2`; with the
call-site option `IncludedPackages("a3")` it holds `a3`; the field
`SkipNonProjectFiles`, which no option sets, keeps its default. -/
theorem applyOptions_package_layer_skipped :
    (layeredRegistry.pkgLocalOptions "example.com/app").map
        (fun f => (f DefaultOptions).IncludedPackages) = [["a2"]]
    ∧ (mergedOptions exampleEnv layeredRegistry
        (ownFrame exampleEnv "WrapPanic" "panic.go" 38 :: appCallers) []).map
        (fun f => (f DefaultOptions).IncludedPackages) = [["a1"]]
    ∧ (wrapPanicOptions exampleEnv layeredRegistry appCallers []).IncludedPackages = ["a1"]
    ∧ (WrapPanic exampleEnv layeredRegistry appCallers (Value.str "boom") []).map
        (fun r => r.map (fun pe => pe.Options.IncludedPackages)) = some (some ["a1"])
    ∧ (wrapPanicOptions exampleEnv layeredRegistry appCallers
        [IncludedPackages ["a3"]]).IncludedPackages = ["a3"]
    ∧ (wrapPanicOptions exampleEnv layeredRegistry appCallers []).SkipNonProjectFiles
      = DefaultOptions.SkipNonProjectFiles := by
  decide

/-! ## The cause of a wrapped error that has a cause -/

/-- C10, counterexample: `maybeWrap` with the options after
`Wrapf("closing some")` around the error `reading: EOF`, which has the cause
`EOF`. The message is `closing some: reading: EOF`, and `errors.Cause` of the
result is the error `EOF`, not the error that was wrapped. -/
theorem maybeWrap_Wrapf_cause_of_wrapped :
    (maybeWrap exampleEnv appCallers (some readingErr)
        (Wrapf "closing some" [] DefaultOptions)).map GoError.Error
      = some "closing some: reading: EOF"
    ∧ (maybeWrap exampleEnv appCallers (some readingErr)
        (Wrapf "closing some" [] DefaultOptions)).map GoError.Cause
      = some (GoError.plain 7 "EOF")
    ∧ GoError.plain 7 "EOF" ≠ readingErr := by
  decide

end Errorist
